import Mathlib

/-!
# Verification of the osxcollector core

A shallow embedding of the core of `osxcollector/osxcollector.py` (a Python 2
forensic collection script) together with proofs about the embedded code.

The embedded pieces are:

* the value-normalization engine `_normalize_val` (with its timestamp hint check),
* the multi-epoch timestamp heuristics `_value_to_datetime` and the four wrapped
  candidate converters,
* the deep-path accessor `DictUtils.get_deep` / `DictUtils._get_deep_by_chain`,
* the context stack `Logger.Extra` and the structured logger `Logger.log_dict`
  with its `log_exception`/`log_error` failure path,
* the file digestor `_hash_file` (with executable MD5 / SHA-1 / SHA-256).

Modelling conventions, spelled out once here:

* Python values are the inductive family `PyVal`/`PyList`/`PyDict`.  Dict keys
  are modelled as strings (the plist/sqlite readers produce string-keyed
  mappings); `PyVal.list` is a plain Python `list`, which in the source is a
  *different* runtime type from the PyObjC `NSArray` (`PyVal.nsarray`): the
  source tests `isinstance(val, Foundation.NSArray)`, which is false for a
  plain list.
* Exceptions are the `Except PyErr` monad; a bare `except:`/`except Exception`
  corresponds to matching on the `.error` constructor.
* Python `datetime` objects are their timestamp: an integer count of seconds
  (or, pre-`timetuple`, microseconds) since 1970-01-01 on the proleptic
  Gregorian calendar, valid exactly inside the Python datetime range
  (years 1..9999).  `datetime.fromtimestamp` is modelled as a fixed-offset
  local-time shift by `tz` seconds (a parameter); `calendar.timegm ∘ timetuple`
  floors a microsecond instant to whole seconds.  Python floor division by a
  positive constant coincides with Lean `Int` division (`Int.ediv`), which is
  what `/` and `%` denote below.
* Machine words in the digest functions are `Nat` reduced modulo `2 ^ 32`.
-/

/-- The Python exception kinds distinguished by the embedded code. -/
inductive PyErr where
  | keyError
  | typeError
  | valueError
  | indexError
  | attributeError
  | ioError
  | recursionError
deriving DecidableEq, Repr

mutual
/-- A Python value as handed to the core by the plist / sqlite collaborators,
and also the result type of normalization.  Constructors follow the runtime
types the source dispatches on: `unicode`/`str` (`str`), py2 byte strings
(`bytes`, with a flag telling whether the bytes decode as ASCII), sqlite
`buffer` (with its permissive UTF-16LE decoding and whether `unicode(val)`
succeeds), numbers (`int`, `bool`), `Foundation.NSData`, `Foundation.NSArray`,
`NSDictionary`/`dict`, `Foundation.NSDate` (carrying its `repr`), plain Python
`list`, `None`, and a catch-all `other` (carrying its truthiness and `repr`). -/
inductive PyVal where
  | str (s : String)
  | bytes (s : String) (ascii : Bool)
  | buffer (s : String) (decodable : Bool)
  | int (n : Int)
  | bool (b : Bool)
  | nsdata (len : Nat)
  | nsarray (xs : PyList)
  | dict (es : PyDict)
  | nsdate (r : String)
  | list (xs : PyList)
  | none
  | other (truthy : Bool) (r : String)
deriving DecidableEq, Repr

/-- Spine of a Python list value. -/
inductive PyList where
  | nil
  | cons (v : PyVal) (t : PyList)
deriving DecidableEq, Repr

/-- Spine of a (string-keyed) Python dict, in insertion order. -/
inductive PyDict where
  | nil
  | cons (k : String) (v : PyVal) (t : PyDict)
deriving DecidableEq, Repr
end

namespace PyList

def isEmpty : PyList → Bool
  | .nil => true
  | .cons _ _ => false

def length : PyList → Nat
  | .nil => 0
  | .cons _ t => length t + 1

def get? : PyList → Nat → Option PyVal
  | .nil, _ => Option.none
  | .cons v _, 0 => some v
  | .cons _ t, n + 1 => get? t n

end PyList

namespace PyDict

/-- `d[k]` on a dict: the binding for `k` (keys are unique in a real dict,
so the first binding is the binding). -/
def lookup : PyDict → String → Option PyVal
  | .nil, _ => Option.none
  | .cons k v t, key => if k = key then some v else lookup t key

/-- `d[k] = v`: overwrite the existing binding in place, else append. -/
def setKey : PyDict → String → PyVal → PyDict
  | .nil, k, v => .cons k v .nil
  | .cons k' v' t, k, v => if k' = k then .cons k v t else .cons k' v' (setKey t k v)

/-- `del d[k]`: drop the binding for `k` (the caller checks presence). -/
def delKey : PyDict → String → PyDict
  | .nil, _ => .nil
  | .cons k' v' t, k => if k' = k then delKey t k else .cons k' v' (delKey t k)

def keys : PyDict → List String
  | .nil => []
  | .cons k _ t => k :: keys t

def hasKey (d : PyDict) (k : String) : Bool := (lookup d k).isSome

/-- `base.update(upd)`: every binding of `upd` is written into `base`,
overwriting colliding keys (Python `dict.update`). -/
def update : PyDict → PyDict → PyDict
  | base, .nil => base
  | base, .cons k v t => update (setKey base k v) t

def isEmpty : PyDict → Bool
  | .nil => true
  | .cons _ _ _ => false

/-- Real dicts have unique keys; the logger's `extras` dict always satisfies this. -/
def NodupKeys (d : PyDict) : Prop := d.keys.Nodup

end PyDict

/-- Python truthiness (`bool(val)`) for the modelled values. -/
def pyTruthy : PyVal → Bool
  | .str s => s != ""
  | .bytes s _ => s != ""
  | .buffer _ _ => true
  | .int n => n != 0
  | .bool b => b
  | .nsdata len => len != 0
  | .nsarray xs => !xs.isEmpty
  | .dict es => !es.isEmpty
  | .nsdate _ => true
  | .list xs => !xs.isEmpty
  | .none => false
  | .other t _ => t

mutual
/-- Python 2 `repr` of the modelled values.  Only its existence as a plain
string matters to the claims; the rendering is py2-flavoured. -/
def pyRepr : PyVal → String
  | .str s => "u\x27" ++ s ++ "\x27"
  | .bytes s _ => "\x27" ++ s ++ "\x27"
  | .buffer _ _ => "<read-only buffer>"
  | .int n => toString n
  | .bool b => if b then "True" else "False"
  | .nsdata len => "<NSData length " ++ toString len ++ ">"
  | .nsarray xs => "(" ++ pyReprList xs ++ ")"
  | .dict es => "\x7b" ++ pyReprDict es ++ "\x7d"
  | .nsdate r => r
  | .list xs => "[" ++ pyReprList xs ++ "]"
  | .none => "None"
  | .other _ r => r

def pyReprList : PyList → String
  | .nil => ""
  | .cons v .nil => pyRepr v
  | .cons v t => pyRepr v ++ ", " ++ pyReprList t

def pyReprDict : PyDict → String
  | .nil => ""
  | .cons k v .nil => "u\x27" ++ k ++ "\x27: " ++ pyRepr v
  | .cons k v t => "u\x27" ++ k ++ "\x27: " ++ pyRepr v ++ ", " ++ pyReprDict t
end

mutual
/-- `json.dumps` with its default separators.  `Option.none` models the
`TypeError` raised on values JSON cannot serialize (buffers, NSData, NSDate,
NSArray instances, unrecognized objects) and the `UnicodeDecodeError` on
non-ASCII byte strings. -/
def dumps : PyVal → Option String
  | .str s => some ("\"" ++ s ++ "\"")
  | .bytes s ascii => if ascii then some ("\"" ++ s ++ "\"") else Option.none
  | .int n => some (toString n)
  | .bool b => some (if b then "true" else "false")
  | .none => some "null"
  | .list xs => (dumpsList xs).map (fun body => "[" ++ body ++ "]")
  | .dict es => (dumpsDict es).map (fun body => "\x7b" ++ body ++ "\x7d")
  | .nsarray _ => Option.none
  | .buffer _ _ => Option.none
  | .nsdata _ => Option.none
  | .nsdate _ => Option.none
  | .other _ _ => Option.none

def dumpsList : PyList → Option String
  | .nil => some ""
  | .cons v .nil => dumps v
  | .cons v t =>
    match dumps v, dumpsList t with
    | some a, some b => some (a ++ ", " ++ b)
    | _, _ => Option.none

def dumpsDict : PyDict → Option String
  | .nil => some ""
  | .cons k v .nil => (dumps v).map (fun a => "\"" ++ k ++ "\": " ++ a)
  | .cons k v t =>
    match dumps v, dumpsDict t with
    | some a, some b => some ("\"" ++ k ++ "\": " ++ a ++ ", " ++ b)
    | _, _ => Option.none
end

/-! ## Timestamps

`datetime` instants are seconds (or microseconds) since 1970-01-01.  The
Python `datetime` range is years 1..9999; additions leaving it raise
`OverflowError`, which the `_timestamp_errorhandling` wrapper swallows. -/

/-- Seconds from 1970-01-01 back to `datetime.min` (0001-01-01 00:00:00). -/
def MINSEC : Int := -62135596800

/-- Seconds from 1970-01-01 to `datetime.max` without microseconds
(9999-12-31 23:59:59). -/
def MAXSEC : Int := 253402300799

/-- `datetime.min` in microseconds since 1970-01-01. -/
def MINUS : Int := MINSEC * 1000000

/-- `datetime.max` (9999-12-31 23:59:59.999999) in microseconds since 1970-01-01. -/
def MAXUS : Int := MAXSEC * 1000000 + 999999

/-- `datetime(2001, 1, 1)` as seconds since 1970-01-01. -/
def DATETIME_2001 : Int := 978307200

/-- `datetime(1970, 1, 1)` as seconds since 1970-01-01. -/
def DATETIME_1970 : Int := 0

/-- `datetime(1601, 1, 1)` as seconds since 1970-01-01. -/
def DATETIME_1601 : Int := -11644473600

def MIN_YEAR : Int := 2004

/-- Year of the proleptic-Gregorian civil date `d` days after 1970-01-01
(the standard era-based `civil_from_days` computation; `/` and `%` are
Euclidean, i.e. floor division for these positive constants). -/
def civilYear (d : Int) : Int :=
  let z := d + 719468
  let era := z / 146097
  let doe := z % 146097
  let yoe := (doe - doe / 1460 + doe / 36524 - doe / 146096) / 365
  let y := yoe + era * 400
  let doy := doe - (365 * yoe + yoe / 4 - yoe / 100)
  let mp := (5 * doy + 2) / 153
  let m := mp + (if mp < 10 then 3 else -9)
  if m ≤ 2 then y + 1 else y

/-- Month (1..12) of the civil date `d` days after 1970-01-01. -/
def civilMonth (d : Int) : Int :=
  let z := d + 719468
  let doe := z % 146097
  let yoe := (doe - doe / 1460 + doe / 36524 - doe / 146096) / 365
  let doy := doe - (365 * yoe + yoe / 4 - yoe / 100)
  let mp := (5 * doy + 2) / 153
  mp + (if mp < 10 then 3 else -9)

/-- Day of month (1..31) of the civil date `d` days after 1970-01-01. -/
def civilDay (d : Int) : Int :=
  let z := d + 719468
  let doe := z % 146097
  let yoe := (doe - doe / 1460 + doe / 36524 - doe / 146096) / 365
  let doy := doe - (365 * yoe + yoe / 4 - yoe / 100)
  let mp := (5 * doy + 2) / 153
  doy - (153 * mp + 2) / 5 + 1

/-- `dt.year` of a datetime given as seconds since 1970-01-01. -/
def pyYear (s : Int) : Int := civilYear (s / 86400)

/-- `dt.strftime(%Y-%m-%d %H:%M:%S)` — the body of `_datetime_to_string`
(its `try` never fails for the dates that reach it, since accepted years
are ≥ 2004 ≥ 1900). -/
def _datetime_to_string (s : Int) : String :=
  let pad2 : Int → String := fun n => if n < 10 then "0" ++ toString n else toString n
  let pad4 : Int → String := fun n =>
    if n < 10 then "000" ++ toString n
    else if n < 100 then "00" ++ toString n
    else if n < 1000 then "0" ++ toString n
    else toString n
  let d := s / 86400
  let rem := s % 86400
  pad4 (civilYear d) ++ "-" ++ pad2 (civilMonth d) ++ "-" ++ pad2 (civilDay d) ++ " " ++
    pad2 (rem / 3600) ++ ":" ++ pad2 (rem % 3600 / 60) ++ ":" ++ pad2 (rem % 60)

/-- `base + timedelta(...)`, in microseconds since 1970-01-01.  `Option.none`
models the `OverflowError` raised when the result leaves the `datetime`
range (a `timedelta` overflow likewise lands outside this range and raises). -/
def pyAddUs (baseSec deltaUs : Int) : Option Int :=
  let t := baseSec * 1000000 + deltaUs
  if MINUS ≤ t ∧ t ≤ MAXUS then some t else Option.none

/-- The `_convert_to_local` decorator:
`datetime.fromtimestamp(calendar.timegm(dt.timetuple()))`.
`timegm ∘ timetuple` floors the instant to whole seconds; `fromtimestamp`
shifts by the fixed local offset `tz` and raises outside the datetime range. -/
def _convert_to_local (tz : Int) (o : Option Int) : Option Int :=
  o.bind fun us =>
    if MINSEC ≤ us / 1000000 + tz ∧ us / 1000000 + tz ≤ MAXSEC then
      some (us / 1000000 + tz)
    else Option.none

/-- The `_timestamp_errorhandling` decorator: any exception from the wrapped
conversion gives `None`; then `tomorrow = datetime.now() + timedelta(days=1)`
(whose own overflow is also swallowed) and dates with `dt.year < MIN_YEAR`
or `dt > tomorrow` are rejected.  `now` is the local wall-clock time in
seconds since 1970-01-01. -/
def _timestamp_errorhandling (now : Int) (o : Option Int) : Option Int :=
  if now + 86400 > MAXSEC then Option.none
  else
    o.bind fun dt =>
      if pyYear dt < MIN_YEAR ∨ now + 86400 < dt then Option.none else some dt

/-- `_seconds_since_2001_to_datetime`: `DATETIME_2001 + timedelta(seconds=n)`,
converted to local time, validity-filtered. -/
def _seconds_since_2001_to_datetime (now tz n : Int) : Option Int :=
  _timestamp_errorhandling now (_convert_to_local tz (pyAddUs DATETIME_2001 (n * 1000000)))

/-- `_seconds_since_epoch_to_datetime`: `DATETIME_1970 + timedelta(seconds=n)`. -/
def _seconds_since_epoch_to_datetime (now tz n : Int) : Option Int :=
  _timestamp_errorhandling now (_convert_to_local tz (pyAddUs DATETIME_1970 (n * 1000000)))

/-- `_microseconds_since_epoch_to_datetime`: `DATETIME_1970 + timedelta(microseconds=n)`. -/
def _microseconds_since_epoch_to_datetime (now tz n : Int) : Option Int :=
  _timestamp_errorhandling now (_convert_to_local tz (pyAddUs DATETIME_1970 n))

/-- `_microseconds_since_1601_to_datetime`: `DATETIME_1601 + timedelta(microseconds=n)`. -/
def _microseconds_since_1601_to_datetime (now tz n : Int) : Option Int :=
  _timestamp_errorhandling now (_convert_to_local tz (pyAddUs DATETIME_1601 n))

/-- Digit-string parser backing the model of `float(val)` / `int(link)`,
restricted to optionally-signed decimal integers (the only numeric strings
the claims exercise). -/
def digitsToNat : List Char → Option Nat
  | [] => Option.none
  | cs =>
    cs.foldl
      (fun acc c =>
        match acc with
        | Option.none => Option.none
        | some n => if c.isDigit then some (n * 10 + (c.toNat - 48)) else Option.none)
      (some 0)

/-- Model of Python numeric parsing of a string; `Option.none` is the
`ValueError` path. -/
def pyParseNum (s : String) : Option Int :=
  match s.toList with
  | [] => Option.none
  | c :: cs =>
    if c = '-' then (digitsToNat cs).map (fun n => -(n : Int))
    else (digitsToNat (c :: cs)).map (fun n => (n : Int))

/-- The number that reaches the four `timedelta` constructors inside
`_value_to_datetime`: strings are parsed first (`float(val)`, failure
returns early), numbers pass through (`True` counts as 1), and every other
type makes all four wrapped converters raise internally, which the wrapper
turns into `None` — collapsed here to `Option.none` directly. -/
def numForTimestamp : PyVal → Option Int
  | .int n => some n
  | .bool b => some (if b then 1 else 0)
  | .str s => pyParseNum s
  | .bytes s _ => pyParseNum s
  | _ => Option.none

/-- `_value_to_datetime`: the four candidate interpretations, tried in the
source's fixed order with Python `or` (a datetime is always truthy, so `or`
is exactly `Option.orElse`). -/
def _value_to_datetime (now tz : Int) (val : PyVal) : Option Int :=
  match numForTimestamp val with
  | Option.none => Option.none
  | some n =>
    (_microseconds_since_epoch_to_datetime now tz n).orElse fun _ =>
      (_microseconds_since_1601_to_datetime now tz n).orElse fun _ =>
        (_seconds_since_epoch_to_datetime now tz n).orElse fun _ =>
          _seconds_since_2001_to_datetime now tz n

/-! ## Value normalization (`_normalize_val`) -/

/-- The timestamp hint substrings. -/
def tsHints : List String := ["time", "utc", "date", "accessed"]

/-- Python `str.lower()` on one character (ASCII, which is all the key names
use). -/
def pyLowerChar (c : Char) : Char :=
  if 'A' ≤ c ∧ c ≤ 'Z' then Char.ofNat (c.toNat + 32) else c

/-- Python `str.lower()`. -/
def pyLower (s : String) : String := String.mk (s.toList.map pyLowerChar)

/-- Does `needle` start `hay`? -/
def hasSubAt : List Char → List Char → Bool
  | [], _ => true
  | _ :: _, [] => false
  | a :: as, b :: bs => a == b && hasSubAt as bs

/-- Does `needle` occur anywhere in `hay`?  (`-1 != hay.find(needle)`.) -/
def hasSub : List Char → List Char → Bool
  | [], needle => hasSubAt needle []
  | h :: t, needle => hasSubAt needle (h :: t) || hasSub t needle

/-- `-1 != hay.find(needle)`: substring test. -/
def strContainsSub (hay needle : String) : Bool := hasSub hay.toList needle.toList

/-- `any([-1 != key.lower().find(hint) for hint in [...]])`. -/
def hintMatch (s : String) : Bool := tsHints.any (fun h => strContainsSub (pyLower s) h)

/-- The guard `if key and any([-1 != key.lower().find(hint) ...])`.
This runs *before* (outside) the `try` of `_normalize_val`: a truthy key is
sent to `.lower()`, which raises `AttributeError` when the key has no such
method — anything that is not a py2 string.  Both `unicode` and py2 byte
strings *do* have `.lower()`, so both hint normally; nothing catches the
`AttributeError` of the remaining types. -/
def hintCheck : Option PyVal → Except PyErr Bool
  | Option.none => .ok false
  | some k =>
    if pyTruthy k then
      match k with
      | .str s => .ok (hintMatch s)
      | .bytes s _ => .ok (hintMatch s)
      | _ => .error .attributeError
    else .ok false

mutual
/-- `_normalize_val(val, key=None)`.  Branches in source order:

* hint check (outside the `try`; see `hintCheck`) and, on a hint match, the
  timestamp attempt returning `_datetime_to_string`;
* `basestring`: `unicode(val).decode(encoding=utf-8, errors=ignore)` — for a
  unicode string both the success path and the caught `UnicodeEncodeError`
  path return the string itself; for a byte string the implicit ASCII decode
  of non-ASCII bytes raises `UnicodeDecodeError`, caught only by the *outer*
  handler, which returns `repr(val)`;
* `buffer`: permissive UTF-16LE decode, any failure caught locally → `repr`;
* `Number` (including `bool`): returned unchanged;
* `NSData`: descriptive placeholder string;
* `NSArray`: elementwise recursion without a key hint;
* `NSDictionary` / `dict`: entrywise recursion, each entry's key as hint;
* `NSDate`: `repr(val)`;
* falsy leftovers (`not val`): empty string — this is where `None` and the
  *empty* plain list land, since a plain Python list is not an `NSArray`;
* everything else (e.g. a non-empty plain list): `repr(val)`.

A failure inside the `try` (in particular one escaping a recursive call)
is caught by the outer `except Exception` and degrades to `repr(val)`. -/
def _normalize_val (now tz : Int) (val : PyVal) (key : Option PyVal) : Except PyErr PyVal :=
  match hintCheck key with
  | .error e => .error e
  | .ok hinted =>
    match (if hinted then _value_to_datetime now tz val else Option.none) with
    | some dt => .ok (.str (_datetime_to_string dt))
    | Option.none =>
      match val with
      | .str s => .ok (.str s)
      | .bytes s ascii => if ascii then .ok (.str s) else .ok (.str (pyRepr (.bytes s ascii)))
      | .buffer s dec => if dec then .ok (.str s) else .ok (.str (pyRepr (.buffer s dec)))
      | .int n => .ok (.int n)
      | .bool b => .ok (.bool b)
      | .nsdata len => .ok (.str ("<NSData bytes:" ++ toString len ++ ">"))
      | .nsarray xs =>
        match normalizeListVals now tz xs with
        | .ok ys => .ok (.list ys)
        | .error _ => .ok (.str (pyRepr (.nsarray xs)))
      | .dict es =>
        match normalizeDictEntries now tz es with
        | .ok fs => .ok (.dict fs)
        | .error _ => .ok (.str (pyRepr (.dict es)))
      | .nsdate r => .ok (.str (pyRepr (.nsdate r)))
      | .list xs => if xs.isEmpty then .ok (.str "") else .ok (.str (pyRepr (.list xs)))
      | .none => .ok (.str "")
      | .other t r => if t then .ok (.str r) else .ok (.str "")

/-- `[_normalize_val(stuff) for stuff in val]` — no key hint is propagated. -/
def normalizeListVals (now tz : Int) : PyList → Except PyErr PyList
  | .nil => .ok .nil
  | .cons v t =>
    match _normalize_val now tz v Option.none, normalizeListVals now tz t with
    | .ok v', .ok t' => .ok (.cons v' t')
    | .error e, _ => .error e
    | _, .error e => .error e

/-- `dict([(k, _normalize_val(val.get(k), k)) for k in val.keys()])` — each
entry's own key becomes the hint for its value. -/
def normalizeDictEntries (now tz : Int) : PyDict → Except PyErr PyDict
  | .nil => .ok .nil
  | .cons k v t =>
    match _normalize_val now tz v (some (.str k)), normalizeDictEntries now tz t with
    | .ok v', .ok t' => .ok (.cons k v' t')
    | .error e, _ => .error e
    | _, .error e => .error e
end

/-! ## DictUtils -/

namespace DictUtils

/-- `x[link]` with the string subscript `link`: mapping lookup on dicts
(`KeyError` when absent), `TypeError` on sequences and scalars. -/
def subscriptStr (x : PyVal) (link : String) : Except PyErr PyVal :=
  match x with
  | .dict es =>
    match es.lookup link with
    | some v => .ok v
    | Option.none => .error .keyError
  | _ => .error .typeError

/-- `x[i]` with an integer subscript (Python semantics: negative indices
count from the end; out of range raises `IndexError`; dicts raise `KeyError`
— the modelled dicts are string-keyed; scalars raise `TypeError`). -/
def subscriptInt (x : PyVal) (i : Int) : Except PyErr PyVal :=
  match x with
  | .dict _ => .error .keyError
  | .list xs =>
    let n : Int := xs.length
    let j := if i < 0 then i + n else i
    if 0 ≤ j ∧ j < n then
      match xs.get? j.toNat with
      | some v => .ok v
      | Option.none => .error .indexError
    else .error .indexError
  | .nsarray xs =>
    let n : Int := xs.length
    let j := if i < 0 then i + n else i
    if 0 ≤ j ∧ j < n then
      match xs.get? j.toNat with
      | some v => .ok v
      | Option.none => .error .indexError
    else .error .indexError
  | .str s =>
    let n : Int := s.length
    let j := if i < 0 then i + n else i
    if 0 ≤ j ∧ j < n then
      match s.toList.get? j.toNat with
      | some c => .ok (.str (String.mk [c]))
      | Option.none => .error .indexError
    else .error .indexError
  | _ => .error .typeError

/-- `int(link)`; `ValueError` on parse failure. -/
def pyInt (link : String) : Except PyErr Int :=
  match pyParseNum link with
  | some n => .ok n
  | Option.none => .error .valueError

/-- One loop step of `_get_deep_by_chain`:
`try: x = x[link]  except (KeyError, TypeError): x = x[int(link)]`.
Only `KeyError` and `TypeError` reach the fallback; any error raised *by*
the fallback (including `IndexError` and `ValueError`) propagates. -/
def getDeepStep (x : PyVal) (link : String) : Except PyErr PyVal :=
  match subscriptStr x link with
  | .ok v => .ok v
  | .error e =>
    if e = .keyError ∨ e = .typeError then
      match pyInt link with
      | .ok i => subscriptInt x i
      | .error e2 => .error e2
    else .error e

/-- The `for link in chain` loop, stopping at the first uncaught error. -/
def walkChain (x : PyVal) : List String → Except PyErr PyVal
  | [] => .ok x
  | l :: t =>
    match getDeepStep x l with
    | .ok y => walkChain y t
    | .error e => .error e

/-- `DictUtils._get_deep_by_chain`: empty chain yields the default; the loop
runs under `except (KeyError, TypeError, ValueError)` — and only those three
are turned into the default.  `IndexError` is *not* in the tuple. -/
def _get_deep_by_chain (x : PyVal) (chain : List String) (default : PyVal) :
    Except PyErr PyVal :=
  if chain = [] then .ok default
  else
    match walkChain x chain with
    | .ok v => .ok v
    | .error e =>
      if e = .keyError ∨ e = .typeError ∨ e = .valueError then .ok default
      else .error e

/-- The `path` argument of `get_deep`: a dotted string or an explicit
sequence of segments. -/
inductive PathArg where
  | str (s : String)
  | list (segs : List String)

/-- Python `s.split(".")` over the character list (kernel-executable model
of the split used by `_link_path_to_chain`). -/
def splitDots : List Char → List String
  | [] => [""]
  | c :: rest =>
    match splitDots rest with
    | [] => []
    | s :: ss => if c = '.' then "" :: s :: ss else (String.mk [c] ++ s) :: ss

/-- `DictUtils._link_path_to_chain`. -/
def _link_path_to_chain : PathArg → List String
  | .str "" => []
  | .str s => splitDots s.toList
  | .list segs => segs

/-- `DictUtils.get_deep`. -/
def get_deep (x : PyVal) (path : PathArg) (default : PyVal) : Except PyErr PyVal :=
  _get_deep_by_chain x (_link_path_to_chain path) default

end DictUtils

/-! ## Logger -/

namespace Logger

/-- The logger's class-level state: the `Extra.extras` dict, the
`lines_written` counter, the primary sink (`out`, the list of successful
`output_file.write` payloads in order), the diagnostic sink (`err`, for
`sys.stderr`), and a count of write *attempts* on the primary sink
(`writeIdx`), used to address the failure oracle. -/
structure LogState where
  extras : PyDict
  lines_written : Nat
  out : List String
  err : List String
  writeIdx : Nat
deriving DecidableEq, Repr

/-- Process start: empty extras, zero lines written. -/
def initState : LogState := ⟨.nil, 0, [], [], 0⟩

def errKey : String := "osxcollector_error"

/-- The string `log_exception` formats from `message, exc_type, extract_tb(...)`
(content is irrelevant to the claims). -/
def excMsg (e : PyErr) : String :=
  match e with
  | .ioError => " IOError []"
  | .typeError => " TypeError []"
  | _ => " Exception []"

/-- `Logger.log_dict(record)`, with `Logger.log_exception` → `Logger.log_error`
inlined as its exception handler.

* `wfail i` tells whether the `i`-th write attempt on `output_file` raises
  (the failure oracle for the sink); `fuel` is the remaining Python recursion
  depth — at `0` the interpreter raises `RuntimeError: maximum recursion
  depth exceeded` *at the call*, before the body runs.
* The first action, outside the `try`, is `record.update(Logger.Extra.extras)`
  — it mutates the caller's dict, so the mutated record is returned as the
  second component.
* On any `try` failure (serialization `TypeError` from `dumps`, or a write
  failure) the handler runs `log_error(...)`, i.e. a recursive
  `log_dict({osxcollector_error: msg})` followed by three unguarded
  `sys.stderr` writes; an error escaping the handler propagates to the
  caller. -/
def log_dict (wfail : Nat → Bool) : Nat → PyDict → LogState → Except PyErr LogState × PyDict
  | 0, record, _ => (.error .recursionError, record)
  | fuel + 1, record, st =>
    let record1 := record.update st.extras
    let handle : PyErr → LogState → Except PyErr LogState := fun e st' =>
      match (log_dict wfail fuel (.cons errKey (.str (excMsg e)) .nil) st').1 with
      | .error e2 => .error e2
      | .ok st2 =>
        .ok { st2 with
              err := st2.err ++ ["[ERROR] ", excMsg e, " - " ++ pyRepr (.dict st2.extras) ++ "\n"] }
    let result : Except PyErr LogState :=
      match dumps (.dict record1) with
      | Option.none => handle .typeError st
      | some s =>
        if wfail st.writeIdx then
          handle .ioError { st with writeIdx := st.writeIdx + 1 }
        else
          let st1 := { st with out := st.out ++ [s], writeIdx := st.writeIdx + 1 }
          if wfail st1.writeIdx then
            handle .ioError { st1 with writeIdx := st1.writeIdx + 1 }
          else
            .ok { st1 with
                  out := st1.out ++ ["\n"],
                  writeIdx := st1.writeIdx + 1,
                  lines_written := st1.lines_written + 1 }
    (result, record1)

/-- `Logger.Extra.__enter__` (with the source's default `DEBUG_MODE = False`,
so no diagnostic write): `Logger.Extra.extras[self.key] = self.val`. -/
def enterExtra (key : String) (val : PyVal) (st : LogState) : LogState :=
  { st with extras := st.extras.setKey key val }

/-- `Logger.Extra.__exit__`: `del Logger.Extra.extras[self.key]` — deletes
the binding outright, raising `KeyError` when the key is absent. -/
def exitExtra (key : String) (st : LogState) : Except PyErr LogState :=
  if st.extras.hasKey key then .ok { st with extras := st.extras.delKey key }
  else .error .keyError

end Logger

/-! ## File digests (`_hash_file`)

Executable MD5 / SHA-1 / SHA-256 over byte lists, words as `Nat` mod `2 ^ 32`.
The round constants are the standard published tables (MD5: `⌊|sin(i+1)|·2³²⌋`;
SHA-256: fractional parts of cube roots of the first 64 primes). -/

def w32 (n : Nat) : Nat := n % 4294967296

def wnot (a : Nat) : Nat := a ^^^ 4294967295

def rotl32 (a s : Nat) : Nat := w32 ((a <<< s) + (a >>> (32 - s)))

def rotr32 (a s : Nat) : Nat := w32 ((a >>> s) + (a <<< (32 - s)))

/-- The 8-byte length field (bit length) of the padding, little-endian for
MD5 and big-endian for the SHAs. -/
def lenBytes64 (little : Bool) (bits : Nat) : List Nat :=
  let bs := (List.range 8).map (fun i => (bits >>> (8 * i)) % 256)
  if little then bs else bs.reverse

/-- Merkle–Damgård padding: `0x80`, zeros to 56 mod 64, 8 length bytes. -/
def padMsg (little : Bool) (msg : List Nat) : List Nat :=
  msg ++ [128] ++ List.replicate ((119 - msg.length % 64) % 64) 0 ++
    lenBytes64 little (8 * msg.length)

/-- Split into 64-byte blocks (fuel = length makes this structurally
recursive and hence kernel-reducible). -/
def chunks64 (l : List Nat) : List (List Nat) :=
  let rec go : Nat → List Nat → List (List Nat)
    | 0, _ => []
    | _, [] => []
    | fuel + 1, l => l.take 64 :: go fuel (l.drop 64)
  go l.length l

/-- A 64-byte block as 16 32-bit words, little-endian. -/
def wordsLE (block : List Nat) : List Nat :=
  (List.range 16).map (fun i =>
    block.getD (4 * i) 0 + 256 * block.getD (4 * i + 1) 0 +
      65536 * block.getD (4 * i + 2) 0 + 16777216 * block.getD (4 * i + 3) 0)

/-- A 64-byte block as 16 32-bit words, big-endian. -/
def wordsBE (block : List Nat) : List Nat :=
  (List.range 16).map (fun i =>
    block.getD (4 * i + 3) 0 + 256 * block.getD (4 * i + 2) 0 +
      65536 * block.getD (4 * i + 1) 0 + 16777216 * block.getD (4 * i) 0)

def hexDigit (n : Nat) : Char := "0123456789abcdef".toList.getD n '0'

def hexByte (b : Nat) : List Char := [hexDigit (b / 16), hexDigit (b % 16)]

/-- Lowercase hex of a 32-bit word, little-endian byte order (MD5 output). -/
def hexWordLE (w : Nat) : List Char :=
  hexByte (w % 256) ++ hexByte (w >>> 8 % 256) ++ hexByte (w >>> 16 % 256) ++
    hexByte (w >>> 24 % 256)

/-- Lowercase hex of a 32-bit word, big-endian byte order (SHA output). -/
def hexWordBE (w : Nat) : List Char :=
  hexByte (w >>> 24 % 256) ++ hexByte (w >>> 16 % 256) ++ hexByte (w >>> 8 % 256) ++
    hexByte (w % 256)

def md5K : List Nat := [
  3614090360, 3905402710, 606105819, 3250441966, 4118548399, 1200080426, 2821735955, 4249261313,
  1770035416, 2336552879, 4294925233, 2304563134, 1804603682, 4254626195, 2792965006, 1236535329,
  4129170786, 3225465664, 643717713, 3921069994, 3593408605, 38016083, 3634488961, 3889429448,
  568446438, 3275163606, 4107603335, 1163531501, 2850285829, 4243563512, 1735328473, 2368359562,
  4294588738, 2272392833, 1839030562, 4259657740, 2763975236, 1272893353, 4139469664, 3200236656,
  681279174, 3936430074, 3572445317, 76029189, 3654602809, 3873151461, 530742520, 3299628645,
  4096336452, 1126891415, 2878612391, 4237533241, 1700485571, 2399980690, 4293915773, 2240044497,
  1873313359, 4264355552, 2734768916, 1309151649, 4149444226, 3174756917, 718787259, 3951481745]

def md5S : List Nat := [
  7, 12, 17, 22, 7, 12, 17, 22, 7, 12, 17, 22, 7, 12, 17, 22,
  5, 9, 14, 20, 5, 9, 14, 20, 5, 9, 14, 20, 5, 9, 14, 20,
  4, 11, 16, 23, 4, 11, 16, 23, 4, 11, 16, 23, 4, 11, 16, 23,
  6, 10, 15, 21, 6, 10, 15, 21, 6, 10, 15, 21, 6, 10, 15, 21]

def md5g (i : Nat) : Nat :=
  if i < 16 then i
  else if i < 32 then (5 * i + 1) % 16
  else if i < 48 then (3 * i + 5) % 16
  else (7 * i) % 16

def md5f (i b c d : Nat) : Nat :=
  if i < 16 then (b &&& c) ||| (wnot b &&& d)
  else if i < 32 then (d &&& b) ||| (wnot d &&& c)
  else if i < 48 then b ^^^ c ^^^ d
  else c ^^^ (b ||| wnot d)

def md5Block (st : Nat × Nat × Nat × Nat) (block : List Nat) : Nat × Nat × Nat × Nat :=
  let M := wordsLE block
  let (a0, b0, c0, d0) := st
  let fin := (List.range 64).foldl
    (fun acc i =>
      let (a, b, c, d) := acc
      let t := w32 (a + md5f i b c d + md5K.getD i 0 + M.getD (md5g i) 0)
      (d, w32 (b + rotl32 t (md5S.getD i 0)), b, c))
    (a0, b0, c0, d0)
  let (a, b, c, d) := fin
  (w32 (a0 + a), w32 (b0 + b), w32 (c0 + c), w32 (d0 + d))

/-- `hashlib.md5(bytes).hexdigest()`. -/
def md5Hex (msg : List Nat) : String :=
  let (a, b, c, d) := (chunks64 (padMsg true msg)).foldl md5Block
    (1732584193, 4023233417, 2562383102, 271733878)
  String.mk (hexWordLE a ++ hexWordLE b ++ hexWordLE c ++ hexWordLE d)

def sha1f (i b c d : Nat) : Nat :=
  if i < 20 then (b &&& c) ||| (wnot b &&& d)
  else if i < 40 then b ^^^ c ^^^ d
  else if i < 60 then (b &&& c) ||| (b &&& d) ||| (c &&& d)
  else b ^^^ c ^^^ d

def sha1k (i : Nat) : Nat :=
  if i < 20 then 1518500249
  else if i < 40 then 1859775393
  else if i < 60 then 2400959708
  else 3395469782

def sha1Block (st : Nat × Nat × Nat × Nat × Nat) (block : List Nat) :
    Nat × Nat × Nat × Nat × Nat :=
  let ws := (List.range 80).foldl
    (fun w i =>
      if i < 16 then w ++ [(wordsBE block).getD i 0]
      else w ++ [rotl32 (w.getD (i - 3) 0 ^^^ w.getD (i - 8) 0 ^^^
                          w.getD (i - 14) 0 ^^^ w.getD (i - 16) 0) 1])
    []
  let (h0, h1, h2, h3, h4) := st
  let fin := (List.range 80).foldl
    (fun acc i =>
      let (a, b, c, d, e) := acc
      let t := w32 (rotl32 a 5 + sha1f i b c d + e + sha1k i + ws.getD i 0)
      (t, a, rotl32 b 30, c, d))
    (h0, h1, h2, h3, h4)
  let (a, b, c, d, e) := fin
  (w32 (h0 + a), w32 (h1 + b), w32 (h2 + c), w32 (h3 + d), w32 (h4 + e))

/-- `hashlib.sha1(bytes).hexdigest()`. -/
def sha1Hex (msg : List Nat) : String :=
  let (a, b, c, d, e) := (chunks64 (padMsg false msg)).foldl sha1Block
    (1732584193, 4023233417, 2562383102, 271733878, 3285377520)
  String.mk (hexWordBE a ++ hexWordBE b ++ hexWordBE c ++ hexWordBE d ++ hexWordBE e)

def sha256K : List Nat := [
  1116352408, 1899447441, 3049323471, 3921009573, 961987163, 1508970993, 2453635748, 2870763221,
  3624381080, 310598401, 607225278, 1426881987, 1925078388, 2162078206, 2614888103, 3248222580,
  3835390401, 4022224774, 264347078, 604807628, 770255983, 1249150122, 1555081692, 1996064986,
  2554220882, 2821834349, 2952996808, 3210313671, 3336571891, 3584528711, 113926993, 338241895,
  666307205, 773529912, 1294757372, 1396182291, 1695183700, 1986661051, 2177026350, 2456956037,
  2730485921, 2820302411, 3259730800, 3345764771, 3516065817, 3600352804, 4094571909, 275423344,
  430227734, 506948616, 659060556, 883997877, 958139571, 1322822218, 1537002063, 1747873779,
  1955562222, 2024104815, 2227730452, 2361852424, 2428436474, 2756734187, 3204031479, 3329325298]

def sha256Block (st : List Nat) (block : List Nat) : List Nat :=
  let ws := (List.range 64).foldl
    (fun w i =>
      if i < 16 then w ++ [(wordsBE block).getD i 0]
      else
        let s0 := rotr32 (w.getD (i - 15) 0) 7 ^^^ rotr32 (w.getD (i - 15) 0) 18 ^^^
          (w.getD (i - 15) 0 >>> 3)
        let s1 := rotr32 (w.getD (i - 2) 0) 17 ^^^ rotr32 (w.getD (i - 2) 0) 19 ^^^
          (w.getD (i - 2) 0 >>> 10)
        w ++ [w32 (w.getD (i - 16) 0 + s0 + w.getD (i - 7) 0 + s1)])
    []
  let fin := (List.range 64).foldl
    (fun acc i =>
      match acc with
      | [a, b, c, d, e, f, g, h] =>
        let S1 := rotr32 e 6 ^^^ rotr32 e 11 ^^^ rotr32 e 25
        let ch := (e &&& f) ^^^ (wnot e &&& g)
        let t1 := w32 (h + S1 + ch + sha256K.getD i 0 + ws.getD i 0)
        let S0 := rotr32 a 2 ^^^ rotr32 a 13 ^^^ rotr32 a 22
        let mj := (a &&& b) ^^^ (a &&& c) ^^^ (b &&& c)
        let t2 := w32 (S0 + mj)
        [w32 (t1 + t2), a, b, c, w32 (d + t1), e, f, g]
      | other => other)
    st
  (List.range 8).map (fun i => w32 (st.getD i 0 + fin.getD i 0))

/-- `hashlib.sha256(bytes).hexdigest()`. -/
def sha256Hex (msg : List Nat) : String :=
  let hs := (chunks64 (padMsg false msg)).foldl sha256Block
    [1779033703, 3144134277, 1013904242, 2773480762, 1359893119, 2600822924, 528734635, 1541459225]
  String.mk ((List.range 8).map (fun i => hexWordBE (hs.getD i 0))).flatten

/-- `_hash_file(file_path)`.  The file is `Option.none` when `open` (or any
read) raises — the bare `except` then returns three empty strings — and
otherwise the list of chunks `f.read(1024*1024)` yields before the empty
sentinel chunk that stops `iter(partial(f.read, 1024*1024), chr(0) * 0)`. -/
def _hash_file (file : Option (List (List Nat))) : List String :=
  match file with
  | Option.none => ["", "", ""]
  | some chunks =>
    let content := (chunks.takeWhile (fun c => !c.isEmpty)).flatten
    [md5Hex content, sha1Hex content, sha256Hex content]

/-! ## Helper lemmas: timestamps -/

/-- Any timestamp whose civil year reaches 2004 lies at or after
1970-03-01 + 5 full 400-year eras (a coarse but sufficient lower bound:
`11017 * 86400` seconds, i.e. 2000-03-01). -/
theorem pyYear_lower_bound (s : Int) (h : 2004 ≤ pyYear s) : 951868800 ≤ s := by
  simp only [pyYear, civilYear] at h
  split_ifs at h <;> omega

/-- `_convert_to_local` on the exception path. -/
theorem convert_none (tz : Int) : _convert_to_local tz Option.none = Option.none := rfl

/-- `_convert_to_local` on a real instant. -/
theorem convert_some (tz us : Int) :
    _convert_to_local tz (some us) =
      if MINSEC ≤ us / 1000000 + tz ∧ us / 1000000 + tz ≤ MAXSEC then
        some (us / 1000000 + tz)
      else Option.none := rfl

/-- The wrapper swallows exceptions. -/
theorem wrapper_none (now : Int) : _timestamp_errorhandling now Option.none = Option.none := by
  simp only [_timestamp_errorhandling, Option.none_bind]
  split_ifs <;> rfl

/-- The wrapper's validity filter, as an equation. -/
theorem wrapper_some (now dt : Int) :
    _timestamp_errorhandling now (some dt) =
      if now + 86400 > MAXSEC then Option.none
      else if pyYear dt < 2004 ∨ now + 86400 < dt then Option.none else some dt := by
  simp only [_timestamp_errorhandling, Option.some_bind, MIN_YEAR]

/-- Dissection of an accepted candidate: what must hold when the wrapped
conversion `_timestamp_errorhandling ∘ _convert_to_local ∘ pyAddUs` returns a
date. -/
theorem candidate_some_facts {now tz base n dt : Int}
    (h : _timestamp_errorhandling now (_convert_to_local tz (pyAddUs base n)) = some dt) :
    dt = (base * 1000000 + n) / 1000000 + tz ∧
      MINUS ≤ base * 1000000 + n ∧ base * 1000000 + n ≤ MAXUS ∧
      MINSEC ≤ dt ∧ dt ≤ MAXSEC ∧
      2004 ≤ pyYear dt ∧ dt ≤ now + 86400 ∧ now + 86400 ≤ MAXSEC := by
  simp only [pyAddUs] at h
  split_ifs at h with h1
  · rw [convert_some] at h
    split_ifs at h with h2
    · rw [wrapper_some] at h
      split_ifs at h with h3 h4
      all_goals
        first
          | exact Option.noConfusion h
          | (obtain rfl := (Option.some.inj h).symm
             push_neg at h4
             exact ⟨rfl, h1.1, h1.2, h2.1, h2.2, by omega, h4.2, by omega⟩)
    · rw [wrapper_none] at h
      exact Option.noConfusion h
  · rw [convert_none, wrapper_none] at h
    exact Option.noConfusion h

/-- A candidate whose computed local date cannot reach year 2004 is rejected. -/
theorem candidate_none_of_year {now tz : Int} {o : Option Int}
    (h : ∀ us, o = some us → pyYear (us / 1000000 + tz) < 2004) :
    _timestamp_errorhandling now (_convert_to_local tz o) = Option.none := by
  cases o with
  | none => rw [convert_none, wrapper_none]
  | some us =>
    rw [convert_some]
    split_ifs with h2
    · rw [wrapper_some]
      split_ifs with h3 h4
      all_goals first | rfl | exact absurd (Or.inl (h us rfl)) h4
    · rw [wrapper_none]

/-- Accepted values always pass the validity filter (soundness of the
`_timestamp_errorhandling` wrapper). -/
theorem timestamp_errorhandling_sound {now dt : Int} {o : Option Int}
    (h : _timestamp_errorhandling now o = some dt) :
    2004 ≤ pyYear dt ∧ dt ≤ now + 86400 := by
  cases o with
  | none =>
    rw [wrapper_none] at h
    exact Option.noConfusion h
  | some x =>
    rw [wrapper_some] at h
    split_ifs at h with h1 h2
    all_goals
      first
        | exact Option.noConfusion h
        | (obtain rfl := (Option.some.inj h).symm
           push_neg at h2
           exact ⟨by omega, h2.2⟩)

/-- Dissecting Python `or` on optional datetimes. -/
theorem orElse_eq_some {α : Type} {a : Option α} {f : Unit → Option α} {x : α}
    (h : a.orElse f = some x) : a = some x ∨ f () = some x := by
  cases a with
  | none => exact Or.inr (by simpa [Option.orElse] using h)
  | some y => exact Or.inl (by simpa [Option.orElse] using h)

/-! ## Claim C4: candidate order and priority -/

/-- **C4** — `_value_to_datetime` tries the four interpretations in the fixed
order µs-since-1970, µs-since-1601, s-since-1970, s-since-2001, returning the
first accepted result (and `None` when all four reject).  In particular, for
any integer `n` that is a valid date both as seconds-since-1970 and as
seconds-since-2001 (under a local offset of at most a day), the result is the
seconds-since-1970 interpretation: both microsecond interpretations then
necessarily place the date long before year 2004 and are rejected, so the
seconds-since-1970 candidate is the first accepted one. -/
theorem c4_priority (now tz n d3 d4 : Int)
    (htz1 : -86400 ≤ tz) (htz2 : tz ≤ 86400)
    (h3 : _seconds_since_epoch_to_datetime now tz n = some d3)
    (h4 : _seconds_since_2001_to_datetime now tz n = some d4) :
    -- `h4` records that the seconds-since-2001 reading is also plausible;
    -- the fixed priority ignores it in favour of `h3`.
    _value_to_datetime now tz (.int n) = _seconds_since_epoch_to_datetime now tz n ∧
      _value_to_datetime now tz (.int n) = some d3 ∧
      (∀ m, _microseconds_since_epoch_to_datetime now tz m = Option.none →
        _microseconds_since_1601_to_datetime now tz m = Option.none →
        _seconds_since_epoch_to_datetime now tz m = Option.none →
        _seconds_since_2001_to_datetime now tz m = Option.none →
        _value_to_datetime now tz (.int m) = Option.none) := by
  have h3u := h3
  unfold _seconds_since_epoch_to_datetime at h3u
  have hfacts := candidate_some_facts h3u
  simp only [DATETIME_1970, MINUS, MAXUS, MINSEC, MAXSEC] at hfacts
  obtain ⟨hd3, hlo, hhi, hmin, hmax, hyear, hnow, hovok⟩ := hfacts
  have hbound := pyYear_lower_bound d3 hyear
  -- consequently n is at least about 9.5e8 and at most about 2.5e11
  have hn_lo : 951868800 - 86400 ≤ n := by omega
  have hn_hi : n ≤ 253402300799 + 86400 := by omega
  have hc1 : _microseconds_since_epoch_to_datetime now tz n = Option.none := by
    unfold _microseconds_since_epoch_to_datetime DATETIME_1970
    apply candidate_none_of_year
    intro us hus
    simp only [pyAddUs, MINUS, MAXUS, MINSEC, MAXSEC] at hus
    split_ifs at hus with hr
    all_goals
      first
        | exact Option.noConfusion hus
        | (obtain rfl := (Option.some.inj hus).symm
           by_contra hge
           push_neg at hge
           have := pyYear_lower_bound _ hge
           omega)
  have hc2 : _microseconds_since_1601_to_datetime now tz n = Option.none := by
    unfold _microseconds_since_1601_to_datetime DATETIME_1601
    apply candidate_none_of_year
    intro us hus
    simp only [pyAddUs, MINUS, MAXUS, MINSEC, MAXSEC] at hus
    split_ifs at hus with hr
    all_goals
      first
        | exact Option.noConfusion hus
        | (obtain rfl := (Option.some.inj hus).symm
           by_contra hge
           push_neg at hge
           have := pyYear_lower_bound _ hge
           omega)
  have horder : _value_to_datetime now tz (.int n) =
      (_seconds_since_epoch_to_datetime now tz n).orElse
        (fun _ => _seconds_since_2001_to_datetime now tz n) := by
    simp only [_value_to_datetime, numForTimestamp]
    rw [hc1, hc2]
    rfl
  refine ⟨?_, ?_, ?_⟩
  · rw [horder, h3]
    rfl
  · rw [horder, h3]
    rfl
  · intro m hm1 hm2 hm3 hm4
    simp only [_value_to_datetime, numForTimestamp]
    rw [hm1, hm2, hm3, hm4]
    rfl

/-- **C4 witness** — `n = 1100000000` at `now` = 2040-01-01 (so that the
seconds-since-2001 reading is also in the validity window) with UTC local
time: both "valid both ways" hypotheses hold concretely and inference indeed
returns the seconds-since-epoch reading 2004-11-09. -/
theorem c4_priority_witness :
    _value_to_datetime 2208988800 0 (.int 1100000000) = some 1100000000 :=
  ((c4_priority 2208988800 0 1100000000 1100000000 2078307200
    (by decide) (by decide) (by decide) (by decide)).2).1

/-! ## Claim C5: validity bounds -/

/-- **C5** — under each of the four interpretations a computed date is
rejected (the wrapped candidate yields `None`) whenever its year is below
2004 or it lies more than a day after `now`; consequently every date any
candidate accepts — and hence every date `_value_to_datetime` returns —
has year ≥ 2004 and is at most one day in the future. -/
theorem c5_validity (now tz : Int) :
    (∀ (o : Option Int) (dt : Int), o = some dt →
        pyYear dt < 2004 ∨ now + 86400 < dt →
        _timestamp_errorhandling now o = Option.none) ∧
    (∀ n dt,
        _microseconds_since_epoch_to_datetime now tz n = some dt ∨
          _microseconds_since_1601_to_datetime now tz n = some dt ∨
          _seconds_since_epoch_to_datetime now tz n = some dt ∨
          _seconds_since_2001_to_datetime now tz n = some dt →
        2004 ≤ pyYear dt ∧ dt ≤ now + 86400) ∧
    (∀ val dt, _value_to_datetime now tz val = some dt →
        2004 ≤ pyYear dt ∧ dt ≤ now + 86400) := by
  refine ⟨?_, ?_, ?_⟩
  · rintro o dt rfl hbad
    rw [wrapper_some]
    split_ifs <;> rfl
  · rintro n dt (h | h | h | h) <;>
      exact timestamp_errorhandling_sound h
  · intro val dt h
    unfold _value_to_datetime at h
    cases hnum : numForTimestamp val with
    | none =>
      simp only [hnum] at h
      exact Option.noConfusion h
    | some x =>
      simp only [hnum] at h
      rcases orElse_eq_some h with h | h
      · exact timestamp_errorhandling_sound h
      rcases orElse_eq_some h with h | h
      · exact timestamp_errorhandling_sound h
      rcases orElse_eq_some h with h | h
      · exact timestamp_errorhandling_sound h
      · exact timestamp_errorhandling_sound h

/-- **C5 witness** — a concrete accepted inference (`n = 1300000000`,
2011-03-13, at `now` = 2040-01-01, UTC): the returned date indeed has
year ≥ 2004 and does not lie in the future. -/
theorem c5_validity_witness :
    2004 ≤ pyYear 1300000000 ∧ (1300000000 : Int) ≤ 2208988800 + 86400 :=
  (c5_validity 2208988800 0).2.2 (.int 1300000000) 1300000000 (by decide)

/-! ## Helper lemmas: dict update -/

namespace PyDict

theorem lookup_setKey_self : ∀ (d : PyDict) (k : String) (v : PyVal),
    (d.setKey k v).lookup k = some v
  | .nil, k, v => by simp [setKey, lookup]
  | .cons k' v' t, k, v => by
    by_cases h : k' = k
    · simp [setKey, h, lookup]
    · simp [setKey, h, lookup, lookup_setKey_self t k v]

theorem lookup_setKey_ne : ∀ (d : PyDict) (k : String) (v : PyVal) (q : String),
    k ≠ q → (d.setKey k v).lookup q = d.lookup q
  | .nil, k, v, q, h => by simp [setKey, lookup, h]
  | .cons k' v' t, k, v, q, h => by
    by_cases h2 : k' = k
    · subst h2
      simp [setKey, lookup, h]
    · simp [setKey, h2, lookup, lookup_setKey_ne t k v q h]

theorem lookup_update_not_mem : ∀ (u b : PyDict) (k : String),
    k ∉ u.keys → (b.update u).lookup k = b.lookup k
  | .nil, _, _, _ => rfl
  | .cons k0 v0 t, b, k, h => by
    have h1 : k0 ≠ k := fun e => h (by simp [keys, e])
    have h2 : k ∉ t.keys := fun m => h (by simp [keys, m])
    show ((b.setKey k0 v0).update t).lookup k = b.lookup k
    rw [lookup_update_not_mem t _ k h2, lookup_setKey_ne _ _ _ _ h1]

theorem lookup_update_of_mem : ∀ (u b : PyDict) (k : String) (v : PyVal),
    u.NodupKeys → u.lookup k = some v → (b.update u).lookup k = some v
  | .nil, b, k, v, _, hl => by simp [lookup] at hl
  | .cons k0 v0 t, b, k, v, hnd, hl => by
    have hnd2 : k0 ∉ t.keys ∧ t.NodupKeys := by
      simpa [NodupKeys, keys, List.nodup_cons] using hnd
    by_cases hk : k0 = k
    · subst hk
      have hv : v0 = v := by simpa [lookup] using hl
      subst hv
      show ((b.setKey k0 v0).update t).lookup k0 = some v0
      rw [lookup_update_not_mem t _ k0 hnd2.1, lookup_setKey_self]
    · have hl2 : t.lookup k = some v := by simpa [lookup, hk] using hl
      exact lookup_update_of_mem t (b.setKey k0 v0) k v hnd2.2 hl2

theorem lookup_update_isSome_left : ∀ (u b : PyDict) (k : String),
    (b.lookup k).isSome → ((b.update u).lookup k).isSome
  | .nil, _, _, h => h
  | .cons k0 v0 t, b, k, h => by
    show (((b.setKey k0 v0).update t).lookup k).isSome
    apply lookup_update_isSome_left t
    by_cases hk : k0 = k
    · subst hk
      rw [lookup_setKey_self]
      rfl
    · rw [lookup_setKey_ne _ _ _ _ hk]
      exact h

end PyDict

/-! ## Claim C1: context scope nesting -/

/-- **C1 counterexample** — `pushScope("user","alice")`, `pushScope("user","bob")`,
then releasing the inner scope: `__exit__` runs `del extras["user"]`, so the
key is *gone* — a record emitted now carries no `user` at all, not
`user=alice` as the claim requires. -/
theorem c1_counterexample :
    (Logger.exitExtra "user"
        (Logger.enterExtra "user" (.str "bob")
          (Logger.enterExtra "user" (.str "alice") Logger.initState))).map
        (fun st => st.extras.lookup "user") = Except.ok Option.none ∧
      (Logger.exitExtra "user"
          (Logger.enterExtra "user" (.str "bob")
            (Logger.enterExtra "user" (.str "alice") Logger.initState))).map
          (fun st => st.extras.lookup "user") ≠
        Except.ok (some (PyVal.str "alice")) :=
  ⟨rfl, fun h => Option.noConfusion (Except.ok.inj h)⟩

/-- **C1 (amended)** — nesting the same key is shadowing-only: the inner push
overwrites the outer value (a record emitted inside the inner scope carries
`user=bob`), but releasing the inner scope deletes the key outright instead
of restoring `alice` (the next record carries no `user` key), and releasing
the outer scope then raises `KeyError` from `del extras["user"]`. -/
theorem c1_amended_scoping :
    ((PyDict.cons "k" (PyVal.str "v") .nil).update
        (Logger.enterExtra "user" (.str "bob")
          (Logger.enterExtra "user" (.str "alice") Logger.initState)).extras).lookup "user" =
      some (.str "bob") ∧
    Logger.exitExtra "user"
        (Logger.enterExtra "user" (.str "bob")
          (Logger.enterExtra "user" (.str "alice") Logger.initState)) =
      .ok Logger.initState ∧
    Logger.exitExtra "user" Logger.initState = .error .keyError :=
  ⟨rfl, rfl, rfl⟩

/-! ## Claim C7: successful emit -/

/-- **C7** — a successful `Logger.log_dict` call writes exactly the one
serialized JSON object and exactly one line terminator, increments
`lines_written` by exactly one, leaves the context untouched, and the
serialized record (the caller's mapping overlaid with the `extras`) contains
every caller-supplied key and every context key, the context value winning on
collisions. -/
theorem c7_emit (wfail : Nat → Bool) (fuel : Nat) (record : PyDict)
    (st : Logger.LogState) (s : String)
    (hdump : dumps (.dict (record.update st.extras)) = some s)
    (hw1 : wfail st.writeIdx = false)
    (hw2 : wfail (st.writeIdx + 1) = false) :
    Logger.log_dict wfail (fuel + 1) record st =
      (.ok { st with out := st.out ++ [s, "\n"],
                     lines_written := st.lines_written + 1,
                     writeIdx := st.writeIdx + 2 },
        record.update st.extras) ∧
      (∀ k, (record.lookup k).isSome →
        ((record.update st.extras).lookup k).isSome) ∧
      (∀ k v, st.extras.NodupKeys → st.extras.lookup k = some v →
        (record.update st.extras).lookup k = some v) := by
  refine ⟨?_, ?_, ?_⟩
  · simp only [Logger.log_dict, hdump, hw1, hw2]
    simp [List.append_assoc]
  · intro k h
    exact PyDict.lookup_update_isSome_left st.extras record k h
  · intro k v hnd hl
    exact PyDict.lookup_update_of_mem st.extras record k v hnd hl

/-- **C7 witness** — the spec's own example: record `{"k": "v"}` with active
context `{"phase": "x"}` and a healthy sink: one JSON line containing both
keys, one terminator, counter goes 0 → 1. -/
theorem c7_emit_witness :
    Logger.log_dict (fun _ => false) 1 (.cons "k" (.str "v") .nil)
        ⟨.cons "phase" (.str "x") .nil, 0, [], [], 0⟩ =
      (.ok ⟨.cons "phase" (.str "x") .nil, 1,
            ["\x7b\"k\": \"v\", \"phase\": \"x\"\x7d", "\n"], [], 2⟩,
        .cons "k" (.str "v") (.cons "phase" (.str "x") .nil)) ∧
      ((PyDict.cons "k" (.str "v") .nil).update
          (PyDict.cons "phase" (.str "x") .nil)).lookup "phase" =
        some (.str "x") := by
  have h := c7_emit (fun _ => false) 0 (.cons "k" (.str "v") .nil)
    ⟨.cons "phase" (.str "x") .nil, 0, [], [], 0⟩
    "\x7b\"k\": \"v\", \"phase\": \"x\"\x7d" rfl rfl rfl
  exact ⟨h.1, h.2.2 "phase" (.str "x") (by simp [PyDict.NodupKeys, PyDict.keys]) rfl⟩

/-! ## Claim C8: emit under a failing sink -/

/-- **C8 counterexample** — the claim says a failed write leaves the line
counter untouched; in the code the handler routes through `log_error`, whose
nested `log_dict` *does* increment the counter when the error line is written
successfully: with the first write failing and the sink then recovering, the
counter ends at 1, not 0. -/
theorem c8_counterexample :
    ((Logger.log_dict (fun i => i == 0) 5 (.cons "k" (.str "v") .nil)
          Logger.initState).1).map (fun st => st.lines_written) = Except.ok 1 ∧
      ((Logger.log_dict (fun i => i == 0) 5 (.cons "k" (.str "v") .nil)
          Logger.initState).1).map (fun st => st.lines_written) ≠ Except.ok 0 :=
  ⟨rfl, fun h => Nat.succ_ne_zero 0 (Except.ok.inj (rfl.symm.trans h))⟩

/-- With a sink that fails every write, `log_dict` and its error handler
recurse into each other until the recursion budget is exhausted, and the
recursion-limit error propagates to the caller — whatever the records
serialize to. -/
theorem log_dict_all_writes_fail :
    ∀ (fuel : Nat) (record : PyDict) (st : Logger.LogState),
      (Logger.log_dict (fun _ => true) fuel record st).1 = Except.error .recursionError
  | 0, _, _ => rfl
  | fuel + 1, record, st => by
    simp only [Logger.log_dict]
    cases hd : dumps (.dict (record.update st.extras)) with
    | none => simp [hd, log_dict_all_writes_fail fuel]
    | some s => simp [hd, log_dict_all_writes_fail fuel]

/-- **C8 (amended)** — if serialization or the write fails, the exception is
caught and reported through the error path (`log_exception` → `log_error` →
nested `log_dict`), and the call returns normally provided the nested
error-record write succeeds — but the counter *is* incremented by one (for
the error line; the failed record itself is neither written nor counted).
The three conjuncts cover:

1. the write-failure arm: `dumps` succeeds and the first write raises
   `IOError`;
2. the serialization-failure arm: `dumps` itself raises `TypeError` before
   any write attempt (e.g. the record holds an unserializable buffer);
3. the persistent-failure arm: with a sink that fails every write, the
   `log_dict`/`log_error` recursion only stops at the recursion limit, whose
   error propagates to the caller instead of a normal return. -/
theorem c8_amended (wfail : Nat → Bool) (fuel : Nat) (record : PyDict)
    (st : Logger.LogState) :
    (∀ s s2,
      dumps (.dict (record.update st.extras)) = some s →
      wfail st.writeIdx = true →
      dumps (.dict ((PyDict.cons Logger.errKey
          (.str (Logger.excMsg .ioError)) .nil).update st.extras)) = some s2 →
      wfail (st.writeIdx + 1) = false →
      wfail (st.writeIdx + 2) = false →
      Logger.log_dict wfail (fuel + 2) record st =
        (.ok { st with out := st.out ++ [s2, "\n"],
                       writeIdx := st.writeIdx + 3,
                       lines_written := st.lines_written + 1,
                       err := st.err ++ ["[ERROR] ", Logger.excMsg .ioError,
                                         " - " ++ pyRepr (.dict st.extras) ++ "\n"] },
          record.update st.extras)) ∧
    (∀ s2,
      dumps (.dict (record.update st.extras)) = Option.none →
      dumps (.dict ((PyDict.cons Logger.errKey
          (.str (Logger.excMsg .typeError)) .nil).update st.extras)) = some s2 →
      wfail st.writeIdx = false →
      wfail (st.writeIdx + 1) = false →
      Logger.log_dict wfail (fuel + 2) record st =
        (.ok { st with out := st.out ++ [s2, "\n"],
                       writeIdx := st.writeIdx + 2,
                       lines_written := st.lines_written + 1,
                       err := st.err ++ ["[ERROR] ", Logger.excMsg .typeError,
                                         " - " ++ pyRepr (.dict st.extras) ++ "\n"] },
          record.update st.extras)) ∧
    (∀ (f : Nat) (r : PyDict) (st2 : Logger.LogState),
      (Logger.log_dict (fun _ => true) f r st2).1 = Except.error .recursionError) := by
  refine ⟨?_, ?_, ?_⟩
  · intro s s2 hdump hfail hdump2 hw2 hw3
    simp only [Logger.log_dict, hdump, hfail, hdump2, hw2, hw3]
    simp [List.append_assoc]
  · intro s2 hdump hdump2 hw1 hw2
    simp only [Logger.log_dict, hdump, hdump2, hw1, hw2]
    simp [List.append_assoc]
  · exact fun f r st2 => log_dict_all_writes_fail f r st2

/-- **C8 witness** — all three arms at concrete inputs: (1) the first write
fails, the error line goes out and the call returns `ok` with the counter at
1; (2) an unserializable buffer value makes `dumps` raise, the error line
goes out and the counter again ends at 1; (3) a sink that always fails makes
the call propagate the recursion-limit error. -/
theorem c8_amended_witness :
    Logger.log_dict (fun i => i == 0) 2 (.cons "k" (.str "v") .nil)
        Logger.initState =
      (.ok ⟨.nil, 1,
            ["\x7b\"osxcollector_error\": \" IOError []\"\x7d", "\n"],
            ["[ERROR] ", " IOError []", " - \x7b\x7d\n"], 3⟩,
        .cons "k" (.str "v") .nil) ∧
      Logger.log_dict (fun _ => false) 2 (.cons "b" (.buffer "z" false) .nil)
          Logger.initState =
        (.ok ⟨.nil, 1,
              ["\x7b\"osxcollector_error\": \" TypeError []\"\x7d", "\n"],
              ["[ERROR] ", " TypeError []", " - \x7b\x7d\n"], 2⟩,
          .cons "b" (.buffer "z" false) .nil) ∧
      (Logger.log_dict (fun _ => true) 3 (.cons "k" (.str "v") .nil)
          Logger.initState).1 = Except.error .recursionError := by
  refine ⟨?_, ?_, ?_⟩
  · exact (c8_amended (fun i => i == 0) 0 (.cons "k" (.str "v") .nil)
      Logger.initState).1 "\x7b\"k\": \"v\"\x7d"
      "\x7b\"osxcollector_error\": \" IOError []\"\x7d" rfl rfl rfl rfl rfl
  · exact (c8_amended (fun _ => false) 0 (.cons "b" (.buffer "z" false) .nil)
      Logger.initState).2.1
      "\x7b\"osxcollector_error\": \" TypeError []\"\x7d" rfl rfl rfl rfl
  · exact (c8_amended (fun _ => false) 0 (.cons "k" (.str "v") .nil)
      Logger.initState).2.2 3 (.cons "k" (.str "v") .nil) Logger.initState

/-! ## Claim C10: emit mutates the caller's record -/

/-- **C10** — `record.update(Logger.Extra.extras)` runs before the `try`, on
every call that enters the body: whatever the sink does afterwards, the
caller's dict has been overlaid in place with every active context key, the
context values overwriting colliding caller-supplied values. -/
theorem c10_mutation (wfail : Nat → Bool) (fuel : Nat) (record : PyDict)
    (st : Logger.LogState) :
    (Logger.log_dict wfail (fuel + 1) record st).2 = record.update st.extras ∧
      (∀ k v, st.extras.NodupKeys → st.extras.lookup k = some v →
        ((Logger.log_dict wfail (fuel + 1) record st).2).lookup k = some v) ∧
      (∀ k, (record.lookup k).isSome →
        (((Logger.log_dict wfail (fuel + 1) record st).2).lookup k).isSome) := by
  have h2 : (Logger.log_dict wfail (fuel + 1) record st).2 = record.update st.extras := by
    simp only [Logger.log_dict]
  refine ⟨h2, ?_, ?_⟩
  · intro k v hnd hl
    rw [h2]
    exact PyDict.lookup_update_of_mem st.extras record k v hnd hl
  · intro k h
    rw [h2]
    exact PyDict.lookup_update_isSome_left st.extras record k h

/-- **C10 witness** — a call whose write *fails* still leaves the caller's
record mutated: the context value `ctx` has overwritten the caller's own
`user` entry. -/
theorem c10_mutation_witness :
    (Logger.log_dict (fun _ => true) 5 (.cons "user" (.str "caller") .nil)
        ⟨.cons "user" (.str "ctx") .nil, 0, [], [], 0⟩).2 =
      PyDict.cons "user" (.str "ctx") .nil ∧
      ((Logger.log_dict (fun _ => true) 5 (.cons "user" (.str "caller") .nil)
          ⟨.cons "user" (.str "ctx") .nil, 0, [], [], 0⟩).2).lookup "user" =
        some (.str "ctx") := by
  have h := c10_mutation (fun _ => true) 4 (.cons "user" (.str "caller") .nil)
    ⟨.cons "user" (.str "ctx") .nil, 0, [], [], 0⟩
  exact ⟨h.1.trans rfl,
    h.2.1 "user" (.str "ctx") (by simp [PyDict.NodupKeys, PyDict.keys]) rfl⟩

/-! ## Claim C2: normalization totality -/

/-- **C2 counterexample** — a truthy non-string field hint: the guard
`key and any([... key.lower() ...])` runs *outside* the `try`, and
`(1).lower()` raises `AttributeError`, which propagates to the caller —
`normalize` does raise for this input, against the claim. -/
theorem c2_counterexample :
    _normalize_val 0 0 (.int 5) (some (.int 1)) = .error .attributeError ∧
      ¬ ∃ r, _normalize_val 0 0 (.int 5) (some (.int 1)) = .ok r :=
  ⟨rfl, fun ⟨_, hr⟩ => Except.noConfusion (rfl.symm.trans hr :
    (Except.error .attributeError : Except PyErr PyVal) = .ok _)⟩

/-- Manual one-step unfolding of `_normalize_val` (the equation compiler
cannot produce an unfold theorem for this mutual definition, but each
constructor case holds definitionally). -/
theorem normalize_unfold (now tz : Int) (val : PyVal) (key : Option PyVal) :
    _normalize_val now tz val key =
      match hintCheck key with
      | .error e => .error e
      | .ok hinted =>
        match (if hinted then _value_to_datetime now tz val else Option.none) with
        | some dt => .ok (.str (_datetime_to_string dt))
        | Option.none =>
          match val with
          | .str s => .ok (.str s)
          | .bytes s ascii => if ascii then .ok (.str s) else .ok (.str (pyRepr (.bytes s ascii)))
          | .buffer s dec => if dec then .ok (.str s) else .ok (.str (pyRepr (.buffer s dec)))
          | .int n => .ok (.int n)
          | .bool b => .ok (.bool b)
          | .nsdata len => .ok (.str ("<NSData bytes:" ++ toString len ++ ">"))
          | .nsarray xs =>
            match normalizeListVals now tz xs with
            | .ok ys => .ok (.list ys)
            | .error _ => .ok (.str (pyRepr (.nsarray xs)))
          | .dict es =>
            match normalizeDictEntries now tz es with
            | .ok fs => .ok (.dict fs)
            | .error _ => .ok (.str (pyRepr (.dict es)))
          | .nsdate r => .ok (.str (pyRepr (.nsdate r)))
          | .list xs => if xs.isEmpty then .ok (.str "") else .ok (.str (pyRepr (.list xs)))
          | .none => .ok (.str "")
          | .other t r => if t then .ok (.str r) else .ok (.str "") := by
  cases val <;> rfl

/-- A py2 byte-string hint, truthy or not, never raises: byte strings have
`.lower()` just like unicode strings, so the hint guard computes normally. -/
theorem hintCheck_bytes_ok (s : String) (a : Bool) :
    ∃ b, hintCheck (some (.bytes s a)) = .ok b := by
  simp only [hintCheck]
  split_ifs <;> exact ⟨_, rfl⟩

/-- **C2 (amended)** — for every raw value and every *absent, falsy, or
string* field hint, `_normalize_val` terminates and returns a value: any
failure inside its `try` (including failures escaping the recursive calls on
container elements) is caught by the outer `except Exception` and degraded to
the `repr` string of the input.  Only a truthy non-string hint escapes, via
the hint check that sits outside the `try`. -/
theorem c2_amended (now tz : Int) (val : PyVal) (key : Option PyVal)
    (hk : ∀ k, key = some k → (∃ s, k = PyVal.str s) ∨ pyTruthy k = false) :
    ∃ r, _normalize_val now tz val key = .ok r := by
  have hok : ∃ b, hintCheck key = .ok b := by
    cases key with
    | none => exact ⟨false, rfl⟩
    | some k =>
      rcases hk k rfl with ⟨s, rfl⟩ | hfalse
      · simp only [hintCheck]
        split_ifs <;> exact ⟨_, rfl⟩
      · exact ⟨false, by simp [hintCheck, hfalse]⟩
  obtain ⟨b, hb⟩ := hok
  rw [normalize_unfold, hb]
  cases b with
  | true =>
    cases hts : _value_to_datetime now tz val with
    | some dt => exact ⟨_, rfl⟩
    | none =>
      cases val with
      | str s => exact ⟨_, rfl⟩
      | bytes s ascii => cases ascii <;> exact ⟨_, rfl⟩
      | buffer s dec => cases dec <;> exact ⟨_, rfl⟩
      | int n => exact ⟨_, rfl⟩
      | bool b2 => exact ⟨_, rfl⟩
      | nsdata len => exact ⟨_, rfl⟩
      | nsarray xs =>
        show ∃ r, (match normalizeListVals now tz xs with
            | .ok ys => Except.ok (PyVal.list ys)
            | .error _ => Except.ok (.str (pyRepr (.nsarray xs)))) = Except.ok r
        cases h2 : normalizeListVals now tz xs <;> exact ⟨_, rfl⟩
      | dict es =>
        show ∃ r, (match normalizeDictEntries now tz es with
            | .ok fs => Except.ok (PyVal.dict fs)
            | .error _ => Except.ok (.str (pyRepr (.dict es)))) = Except.ok r
        cases h2 : normalizeDictEntries now tz es <;> exact ⟨_, rfl⟩
      | nsdate r => exact ⟨_, rfl⟩
      | list xs => cases xs <;> exact ⟨_, rfl⟩
      | none => exact ⟨_, rfl⟩
      | other t r => cases t <;> exact ⟨_, rfl⟩
  | false =>
    cases val with
    | str s => exact ⟨_, rfl⟩
    | bytes s ascii => cases ascii <;> exact ⟨_, rfl⟩
    | buffer s dec => cases dec <;> exact ⟨_, rfl⟩
    | int n => exact ⟨_, rfl⟩
    | bool b2 => exact ⟨_, rfl⟩
    | nsdata len => exact ⟨_, rfl⟩
    | nsarray xs =>
      show ∃ r, (match normalizeListVals now tz xs with
          | .ok ys => Except.ok (PyVal.list ys)
          | .error _ => Except.ok (.str (pyRepr (.nsarray xs)))) = Except.ok r
      cases h2 : normalizeListVals now tz xs <;> exact ⟨_, rfl⟩
    | dict es =>
      show ∃ r, (match normalizeDictEntries now tz es with
          | .ok fs => Except.ok (PyVal.dict fs)
          | .error _ => Except.ok (.str (pyRepr (.dict es)))) = Except.ok r
      cases h2 : normalizeDictEntries now tz es <;> exact ⟨_, rfl⟩
    | nsdate r => exact ⟨_, rfl⟩
    | list xs => cases xs <;> exact ⟨_, rfl⟩
    | none => exact ⟨_, rfl⟩
    | other t r => cases t <;> exact ⟨_, rfl⟩

/-- **C2 witness** — a platform date value under the (string) hint `mtime`:
normalization returns a value. -/
theorem c2_amended_witness :
    ∃ r, _normalize_val 0 0 (.nsdate "NSDate-object") (some (.str "mtime")) = .ok r :=
  c2_amended 0 0 (.nsdate "NSDate-object") (some (.str "mtime"))
    (fun k hk => by cases hk; exact Or.inl ⟨"mtime", rfl⟩)

/-! ## Claim C6: idempotence of normalization -/

/-- **C6 counterexample** — `[1]` is an already-normalized value (a sequence
of normalized values: it is exactly what normalizing a one-element `NSArray`
of `1` produces), yet normalizing it again yields the string `"[1]"`: a plain
Python list is not an `NSArray`, falls past every `isinstance` branch and
lands in the `repr(val)` fallback. -/
theorem c6_counterexample :
    _normalize_val 0 0 (.list (.cons (.int 1) .nil)) Option.none =
        .ok (.str "[1]") ∧
      _normalize_val 0 0 (.list (.cons (.int 1) .nil)) Option.none ≠
        .ok (.list (.cons (.int 1) .nil)) ∧
      _normalize_val 0 0 (.nsarray (.cons (.int 1) .nil)) Option.none =
        .ok (.list (.cons (.int 1) .nil)) :=
  ⟨rfl, fun h => PyVal.noConfusion (Except.ok.inj (rfl.symm.trans h :
      (Except.ok (PyVal.str "[1]") : Except PyErr PyVal) = .ok _)),
    rfl⟩

/-- **C6 (amended)** — normalization is idempotent on the scalar normalized
values: strings (both the ASCII decode path and the caught
`UnicodeEncodeError` path return the string unchanged), numbers, and
booleans, under no field hint.  It is *not* idempotent on sequences (see the
counterexample), on `None` (renormalized to `""`), or on mappings whose keys
hint timestamps. -/
theorem c6_amended (now tz : Int) (s : String) (n : Int) (b : Bool) :
    _normalize_val now tz (.str s) Option.none = .ok (.str s) ∧
      _normalize_val now tz (.int n) Option.none = .ok (.int n) ∧
      _normalize_val now tz (.bool b) Option.none = .ok (.bool b) :=
  ⟨rfl, rfl, rfl⟩

/-! ## Claim C3: the deep-path accessor -/

/-- **C3** — evaluating the code at the failing input: on
`{"a": [10, 20, 30]}` with path `"a.5"`, the mapping lookup raises
`TypeError`, the fallback `x[int("5")]` raises `IndexError`, and `IndexError`
is in neither `except` tuple, so `get_deep` *raises* instead of returning the
default.  (By contrast the spec's own in-range example `"a.b.1"` and the
missing-key example `"a.b"` behave as documented.) -/
theorem c3_indexerror_eval :
    DictUtils.get_deep
        (.dict (.cons "a"
          (.list (.cons (.int 10) (.cons (.int 20) (.cons (.int 30) .nil)))) .nil))
        (.str "a.5") .none = .error .indexError ∧
      DictUtils.get_deep
          (.dict (.cons "a" (.dict (.cons "b"
            (.list (.cons (.int 10) (.cons (.int 20) (.cons (.int 30) .nil)))) .nil)) .nil))
          (.str "a.b.1") .none = .ok (.int 20) ∧
      DictUtils.get_deep (.dict (.cons "a" (.int 1) .nil)) (.str "a.b") .none =
          .ok .none ∧
      DictUtils.get_deep (.dict .nil) (.str "") .none = .ok .none :=
  ⟨rfl, rfl, rfl, rfl⟩

/-! ## Claim C9: file digests -/

set_option maxRecDepth 1000000 in
/-- **C9** — `_hash_file` on a zero-byte readable file returns exactly the
three standard empty-input digests (`md5`, `sha1`, `sha256` of the empty
byte string, computed here by the executable digest functions), and on any
I/O failure (the `open`/read exception path) returns three empty strings
without raising. -/
theorem c9_hash :
    _hash_file (some []) =
        [md5Hex [], sha1Hex [], sha256Hex []] ∧
      _hash_file (some []) =
        ["d41d8cd98f00b204e9800998ecf8427e",
          "da39a3ee5e6b4b0d3255bfef95601890afd80709",
          "e3b0c44298fc1c149afbf4c8996fb92427ae41e4649b934ca495991b7852b855"] ∧
      _hash_file Option.none = ["", "", ""] := by
  refine ⟨rfl, ?_, rfl⟩
  show [md5Hex [], sha1Hex [], sha256Hex []] = _
  decide
